import Mathlib

/-! File storage backend: upload, list and delete handlers; bearer-token extraction.

A shallow embedding of `backend/internal/api/handlers/files.go` and of
`ExtractBearerToken` from `backend/internal/services/auth/auth.go`.

Go strings are modelled by `String`.  The handlers run against a `World`
(the `files` table and the object-store bucket); every call on a store is
recorded in a trace, and a `Faults` record decides which store calls return
an error.
-/

set_option autoImplicit false
set_option maxRecDepth 100000

namespace FileStorage

/-! ## Decimal formatting and the storage key (`files.go`, line 34) -/

/-- The character of the decimal digit `d`. -/
def digitChar (d : Nat) : Char := Char.ofNat (48 + d)

/-- Decimal digits of `n`, most significant first; `fuel` bounds the number of digits. -/
def decDigits : Nat → Nat → List Char
  | 0, _ => []
  | fuel + 1, n =>
    if n < 10 then [digitChar n] else decDigits fuel (n / 10) ++ [digitChar (n % 10)]

/-- Decimal rendering of a natural number. -/
def formatNat (n : Nat) : List Char := decDigits (n + 1) n

/-- The verb `%d` of `fmt.Sprintf` applied to an `int64`: a minus sign for a
negative value, then the decimal digits of the magnitude. -/
def formatInt : Int → String
  | Int.ofNat n => ⟨formatNat n⟩
  | Int.negSucc n => ⟨'-' :: formatNat (n + 1)⟩

/-- The storage key of `UploadFile`:
`fmt.Sprintf("%s_%d_%s", userID, time.Now().UnixNano(), header.Filename)`. -/
def deriveKey (userID : String) (nanos : Int) (filename : String) : String :=
  userID ++ "_" ++ formatInt nanos ++ "_" ++ filename

/-! ## `ExtractBearerToken` (`auth.go`, lines 30-43) -/

/-- Pieces of a character sequence between the occurrences of `sep`. -/
def splitChars (sep : Char) : List Char → List (List Char)
  | [] => [[]]
  | c :: cs =>
    if c = sep then [] :: splitChars sep cs
    else
      match splitChars sep cs with
      | [] => [[c]]
      | p :: ps => (c :: p) :: ps

/-- The call `strings.Split(s, sep)` for a separator of one character. -/
def stringsSplit (s : String) (sep : Char) : List String :=
  (splitChars sep s.data).map String.mk

/-- The function `ExtractBearerToken`, applied to the value `authHeader` of
`r.Header.Get("Authorization")`.  The result is the Go pair `(token, err)`;
`none` is a nil error. -/
def ExtractBearerToken (authHeader : String) : String × Option String :=
  if authHeader = "" then
    ("", some "missing Authorization header")
  else
    let parts := stringsSplit authHeader ' '
    if parts.length ≠ 2 ∨ parts.get? 0 ≠ some "Bearer" then
      ("", some "invalid Authorization header format")
    else
      (parts.getD 1 "", none)

/-! ## Data model -/

/-- An instant as returned by `time.Now()`, in nanoseconds since the Unix epoch. -/
abbrev Time := Int

/-- The method `Time.UnixNano`: the instant as an `int64`. -/
def UnixNano (t : Time) : Int := (t + 2 ^ 63) % 2 ^ 64 - 2 ^ 63

/-- A value of `uuid.UUID`: sixteen bytes. -/
structure UUID where
  bytes : List Nat
deriving DecidableEq, Repr

/-- The operations of `github.com/google/uuid` that the handlers use.
`Parse s` is the Go pair `(value, err == nil)`; `Scan` is `UUID.Scan` on a
column value, `none` being an error; `Value` is `UUID.Value`, the text the
SQL driver stores for a UUID argument. -/
structure UUIDLib where
  Parse : String → UUID × Bool
  Scan : String → Option UUID
  Value : UUID → String

/-- A row of table `files`, columns in the order `GetFiles` scans them. -/
structure Row where
  id : String
  user_id : String
  collection_id : Option String
  key : String
  name : String
  size : Int
  content_type : String
  uploaded_at : Time
  created_at : Time
  updated_at : Time
deriving DecidableEq, Repr

/-- Modelled from the spec: the struct `models.File` is not among the sources;
its fields are those of the File entity of the data model, under the names
the handlers use. -/
structure File where
  ID : UUID
  UserID : UUID
  CollectionID : Option UUID
  Key : String
  Name : String
  Size : Int
  ContentType : String
  UploadedAt : Time
  CreatedAt : Time
  UpdatedAt : Time
deriving DecidableEq, Repr

/-- Modelled from the spec: package `pkg/errors` is not among the sources; these
are its constructors that the handlers call. -/
inductive ErrorKind
  | Unauthorized
  | BadRequest
  | NotFound
  | InternalServerError
deriving DecidableEq, Repr

/-- Modelled from the spec: package `pkg/errors` is not among the sources; an
error value is the constructor that built it and its message. -/
structure AppError where
  Kind : ErrorKind
  Message : String
deriving DecidableEq, Repr

/-- Modelled from the spec: the result type of `utils.CalculatePagination` is
not among the sources; the fields are those of the pagination block of List. -/
structure PaginationInfo where
  Page : Int
  PageSize : Int
  TotalCount : Int
  TotalPages : Int
  HasNext : Bool
  HasPrevious : Bool
deriving DecidableEq, Repr

/-- Modelled from the spec: the struct `utils.Pagination` is not among the
sources; it holds the page number and the page size of the request. -/
structure Pagination where
  Page : Int
  PageSize : Int
deriving DecidableEq, Repr

/-- Modelled from the spec: `Pagination.CalculateOffset` is not among the
sources; the offset is `(page - 1) * page_size`. -/
def CalculateOffset (p : Pagination) : Int := (p.Page - 1) * p.PageSize

/-- Modelled from the spec: `utils.CalculatePagination` is not among the
sources; `total_pages = ceil(total_count / page_size)`,
`has_next = page < total_pages`, `has_previous = page > 1`. -/
def CalculatePagination (totalCount page pageSize : Int) : PaginationInfo :=
  let totalPages := (totalCount + pageSize - 1) / pageSize
  { Page := page, PageSize := pageSize, TotalCount := totalCount,
    TotalPages := totalPages, HasNext := decide (page < totalPages),
    HasPrevious := decide (page > 1) }

/-- The value handed to `utils.RespondJSON`. -/
inductive Body
  | File (f : File)
  | Listing (files : List File) (pagination : PaginationInfo)
  | Message (message : String)
deriving DecidableEq, Repr

/-- What a handler writes: `utils.RespondError(w, e)` or
`utils.RespondJSON(w, status, body)`. -/
inductive Response
  | RespondError (e : AppError)
  | RespondJSON (status : Nat) (body : Body)
deriving DecidableEq, Repr

/-! ## The two stores -/

/-- The state the handlers act on: table `files` in row order and the bucket
of the object store, a list of `(key, content)` with one entry per key. -/
structure World where
  files : List Row
  bucket : List (String × String)
deriving DecidableEq, Repr

/-- A call on one of the two stores. -/
inductive Call
  | Put (key content : String)
  | Remove (key : String)
  | Insert (row : Row)
  | SelectKey (id userID : String)
  | Delete (id : String)
  | SelectFiles (userID : String) (limit offset : Int)
  | Count (userID : String)
deriving DecidableEq, Repr

/-- Which store calls return an error, as a function of the state and of the
arguments of the call.  `rowsStop` is the number of rows after which
`rows.Next()` stops on an iteration error (`none`: it reaches the end);
`scanErr` is a failure of `rows.Scan` on a column other than the two UUIDs. -/
structure Faults where
  putErr : World → String → String → Bool
  removeErr : World → String → Bool
  insertErr : World → Row → Bool
  selectKeyErr : World → String → String → Bool
  deleteErr : World → String → Bool
  selectFilesErr : World → String → Int → Int → Bool
  rowsStop : World → Option Nat
  scanErr : Row → Bool
  countErr : World → String → Bool

/-- Modelled from the spec: `storage.R2Service.UploadFile` is not among the
sources; it is `put(key, stream) -> ok | StorageError`.  A successful put
stores the content under the key; `none` is the error. -/
def R2UploadFile (fl : Faults) (w : World) (key content : String) : Option World :=
  if fl.putErr w key content then none
  else some { w with bucket := (key, content) :: w.bucket.filter (fun b => b.1 ≠ key) }

/-- Modelled from the spec: `storage.R2Service.DeleteFile` is not among the
sources; it is `delete(key) -> ok | StorageError`.  A successful delete
removes the key; `none` is the error. -/
def R2DeleteFile (fl : Faults) (w : World) (key : String) : Option World :=
  if fl.removeErr w key then none
  else some { w with bucket := w.bucket.filter (fun b => b.1 ≠ key) }

/-- The statement `INSERT INTO files (id, user_id, key, name, size, content_type,
uploaded_at, created_at, updated_at) VALUES (...)`; `none` is the error. -/
def execInsert (fl : Faults) (w : World) (row : Row) : Option World :=
  if fl.insertErr w row then none else some { w with files := w.files ++ [row] }

/-- The query `SELECT key FROM files WHERE id = ? AND user_id = ?` followed by
`Scan(&key)`; `none` is the error, `sql.ErrNoRows` included. -/
def queryRowKey (fl : Faults) (w : World) (id userID : String) : Option String :=
  if fl.selectKeyErr w id userID then none
  else ((w.files.filter (fun r => r.id = id ∧ r.user_id = userID)).head?).map Row.key

/-- The statement `DELETE FROM files WHERE id = ?`; `none` is the error. -/
def execDelete (fl : Faults) (w : World) (id : String) : Option World :=
  if fl.deleteErr w id then none
  else some { w with files := w.files.filter (fun r => r.id ≠ id) }

/-- The clause `LIMIT ? OFFSET ?` of SQLite: a negative offset is zero, a
negative limit is no limit. -/
def limitOffset (rows : List Row) (limit offset : Int) : List Row :=
  let rest := rows.drop offset.toNat
  if limit < 0 then rest else rest.take limit.toNat

/-- The query `SELECT * FROM files WHERE user_id = ? LIMIT ? OFFSET ?` and the
rows that `rows.Next()` delivers; `none` is the error of `Query`. -/
def queryFiles (fl : Faults) (w : World) (userID : String) (limit offset : Int) :
    Option (List Row) :=
  if fl.selectFilesErr w userID limit offset then none
  else
    let rows := limitOffset (w.files.filter (fun r => r.user_id = userID)) limit offset
    match fl.rowsStop w with
    | none => some rows
    | some n => some (rows.take n)

/-- The query `SELECT COUNT(*) FROM files WHERE user_id = ?` followed by
`Scan(&totalCount)`; `none` is the error. -/
def queryCount (fl : Faults) (w : World) (userID : String) : Option Int :=
  if fl.countErr w userID then none
  else some ((w.files.filter (fun r => r.user_id = userID)).length : Int)

/-! ## Requests and `GetUserIDFromContext` (`auth.go`, lines 16-23) -/

/-- The function `GetUserIDFromContext`, applied to the string stored in the
context under `UserIDContextKey`, if there is one. -/
def GetUserIDFromContext (ctxValue : Option String) : String × Option String :=
  match ctxValue with
  | some userID => (userID, none)
  | none => ("", some "user ID not found in context")

/-- The part `header` of `r.FormFile("file")`. -/
structure FileHeader where
  Filename : String
  Size : Int
  ContentType : String
deriving DecidableEq, Repr

/-- A request to `UploadFile`: the context value and the result of
`r.FormFile("file")`, the content of the file and its header, if any. -/
structure UploadRequest where
  ctxUserID : Option String
  formFile : Option (String × FileHeader)
deriving DecidableEq, Repr

/-- A request to `GetFiles`: the context value and the query parameters. -/
structure ListRequest where
  ctxUserID : Option String
  page : String
  pageSize : String
deriving DecidableEq, Repr

/-- A request to `DeleteFile`: the context value and the URL parameter `id`. -/
structure DeleteRequest where
  ctxUserID : Option String
  id : String
deriving DecidableEq, Repr

/-- The result of a handler: the response, the state afterwards and the store
calls it made, in order. -/
structure Outcome where
  resp : Response
  world : World
  calls : List Call
deriving DecidableEq, Repr

/-- An error response. -/
def fail (kind : ErrorKind) (message : String) : Response :=
  Response.RespondError { Kind := kind, Message := message }

/-! ## The handlers (`files.go`) -/

/-- The row that the `INSERT` of `UploadFile` writes for `newFile`. -/
def rowOfFile (lib : UUIDLib) (f : File) : Row :=
  { id := lib.Value f.ID, user_id := lib.Value f.UserID, collection_id := none,
    key := f.Key, name := f.Name, size := f.Size, content_type := f.ContentType,
    uploaded_at := f.UploadedAt, created_at := f.CreatedAt, updated_at := f.UpdatedAt }

/-- The struct literal `newFile` of `UploadFile` (lines 48-58): `uuid.New()`
gives `newID`, and the three timestamps are the three calls of `time.Now()`
that follow the one of the key. -/
def newFile (clock : Nat → Time) (newID userUUID : UUID) (key : String)
    (header : FileHeader) : File :=
  { ID := newID, UserID := userUUID, CollectionID := none, Key := key,
    Name := header.Filename, Size := header.Size, ContentType := header.ContentType,
    UploadedAt := clock 1, CreatedAt := clock 2, UpdatedAt := clock 3 }

/-- The handler `UploadFile` (lines 19-69).  `clock n` is the result of the
`n`-th call of `time.Now()` in the request, counted from zero, and `newID`
the result of `uuid.New()`. -/
def UploadFile (lib : UUIDLib) (fl : Faults) (clock : Nat → Time) (newID : UUID)
    (w : World) (r : UploadRequest) : Outcome :=
  match GetUserIDFromContext r.ctxUserID with
  | (_, some _) => ⟨fail .Unauthorized "User not authenticated", w, []⟩
  | (userID, none) =>
    match r.formFile with
    | none => ⟨fail .BadRequest "Failed to get file from form", w, []⟩
    | some (file, header) =>
      let key := deriveKey userID (UnixNano (clock 0)) header.Filename
      match R2UploadFile fl w key file with
      | none => ⟨fail .InternalServerError "Failed to upload file", w, [Call.Put key file]⟩
      | some w1 =>
        match lib.Parse userID with
        | (_, false) =>
          ⟨fail .InternalServerError "Invalid user ID", w1, [Call.Put key file]⟩
        | (userUUID, true) =>
          let f := newFile clock newID userUUID key header
          match execInsert fl w1 (rowOfFile lib f) with
          | none =>
            ⟨fail .InternalServerError "Failed to save file metadata", w1,
              [Call.Put key file, Call.Insert (rowOfFile lib f)]⟩
          | some w2 =>
            ⟨Response.RespondJSON 201 (Body.File f), w2,
              [Call.Put key file, Call.Insert (rowOfFile lib f)]⟩

/-- One pass of the loop of `GetFiles`: `rows.Scan` into a `models.File`, then
the optional collection id, whose parse error is dropped. -/
def scanRow (lib : UUIDLib) (fl : Faults) (row : Row) : Option File :=
  if fl.scanErr row then none
  else
    match lib.Scan row.id, lib.Scan row.user_id with
    | some id, some userID =>
      some { ID := id, UserID := userID,
             CollectionID := row.collection_id.map (fun s => (lib.Parse s).1),
             Key := row.key, Name := row.name, Size := row.size,
             ContentType := row.content_type, UploadedAt := row.uploaded_at,
             CreatedAt := row.created_at, UpdatedAt := row.updated_at }
    | _, _ => none

/-- The loop of `GetFiles` over the rows; `none` when a scan fails. -/
def scanRows (lib : UUIDLib) (fl : Faults) : List Row → Option (List File)
  | [] => some []
  | row :: rest =>
    match scanRow lib fl row with
    | none => none
    | some f =>
      match scanRows lib fl rest with
      | none => none
      | some files => some (f :: files)

/-- The handler `GetFiles` (lines 71-125).  `newPagination` is
`utils.NewPaginationFromRequest`, which is not among the sources. -/
def GetFiles (lib : UUIDLib) (newPagination : String → String → Except AppError Pagination)
    (fl : Faults) (w : World) (r : ListRequest) : Outcome :=
  match GetUserIDFromContext r.ctxUserID with
  | (_, some _) => ⟨fail .Unauthorized "User not authenticated", w, []⟩
  | (userID, none) =>
    match newPagination r.page r.pageSize with
    | .error e => ⟨Response.RespondError e, w, []⟩
    | .ok pagination =>
      let q := Call.SelectFiles userID pagination.PageSize (CalculateOffset pagination)
      match queryFiles fl w userID pagination.PageSize (CalculateOffset pagination) with
      | none => ⟨fail .InternalServerError "Failed to fetch files", w, [q]⟩
      | some rows =>
        match scanRows lib fl rows with
        | none => ⟨fail .InternalServerError "Failed to scan file", w, [q]⟩
        | some files =>
          match queryCount fl w userID with
          | none =>
            ⟨fail .InternalServerError "Failed to get total file count", w,
              [q, Call.Count userID]⟩
          | some totalCount =>
            ⟨Response.RespondJSON 200
                (Body.Listing files
                  (CalculatePagination totalCount pagination.Page pagination.PageSize)),
              w, [q, Call.Count userID]⟩

/-- The handler `DeleteFile` (lines 127-157). -/
def DeleteFile (fl : Faults) (w : World) (r : DeleteRequest) : Outcome :=
  match GetUserIDFromContext r.ctxUserID with
  | (_, some _) => ⟨fail .Unauthorized "User not authenticated", w, []⟩
  | (userID, none) =>
    let fileID := r.id
    match queryRowKey fl w fileID userID with
    | none =>
      ⟨fail .NotFound "File not found or not owned by user", w,
        [Call.SelectKey fileID userID]⟩
    | some key =>
      match R2DeleteFile fl w key with
      | none =>
        ⟨fail .InternalServerError "Failed to delete file from storage", w,
          [Call.SelectKey fileID userID, Call.Remove key]⟩
      | some w1 =>
        match execDelete fl w1 fileID with
        | none =>
          ⟨fail .InternalServerError "Failed to delete file metadata", w1,
            [Call.SelectKey fileID userID, Call.Remove key, Call.Delete fileID]⟩
        | some w2 =>
          ⟨Response.RespondJSON 200 (Body.Message "File deleted successfully"), w2,
            [Call.SelectKey fileID userID, Call.Remove key, Call.Delete fileID]⟩

/-! ## A UUID library and store behaviours for concrete runs -/

/-- Value of a hexadecimal digit. -/
def hexVal (c : Char) : Option Nat :=
  if '0' ≤ c ∧ c ≤ '9' then some (c.toNat - 48)
  else if 'a' ≤ c ∧ c ≤ 'f' then some (c.toNat - 87)
  else if 'A' ≤ c ∧ c ≤ 'F' then some (c.toNat - 55)
  else none

/-- Bytes of a sequence of hexadecimal digit pairs. -/
def hexPairs : List Char → Option (List Nat)
  | [] => some []
  | [_] => none
  | a :: b :: rest =>
    match hexVal a, hexVal b, hexPairs rest with
    | some x, some y, some bs => some ((16 * x + y) :: bs)
    | _, _, _ => none

/-- The zero UUID. -/
def zeroUUID : UUID := ⟨List.replicate 16 0⟩

/-- A parser of the form `xxxxxxxx-xxxx-xxxx-xxxx-xxxxxxxxxxxx` only. -/
def canonicalParse (s : String) : UUID × Bool :=
  let cs := s.data
  if cs.length = 36 ∧ cs.get? 8 = some '-' ∧ cs.get? 13 = some '-' ∧
      cs.get? 18 = some '-' ∧ cs.get? 23 = some '-' then
    match hexPairs (cs.filter (fun c => c ≠ '-')) with
    | some bs => if bs.length = 16 then (⟨bs⟩, true) else (zeroUUID, false)
    | none => (zeroUUID, false)
  else (zeroUUID, false)

/-- The lower-case hexadecimal digit of `d`. -/
def hexChar (d : Nat) : Char :=
  if d < 10 then Char.ofNat (48 + d) else Char.ofNat (87 + d)

/-- The two hexadecimal digits of each byte. -/
def hexString (bs : List Nat) : List Char :=
  bs.flatMap (fun b => [hexChar (b / 16), hexChar (b % 16)])

/-- The canonical text of a UUID. -/
def canonicalValue (u : UUID) : String :=
  ⟨hexString (u.bytes.take 4) ++ '-' :: hexString ((u.bytes.drop 4).take 2) ++
    '-' :: hexString ((u.bytes.drop 6).take 2) ++
    '-' :: hexString ((u.bytes.drop 8).take 2) ++ '-' :: hexString (u.bytes.drop 10)⟩

/-- A UUID library that reads the canonical 36-character form only; the Go
library reads this form and rejects every text whose length is not 32, 36,
38 or 45. -/
def canonicalLib : UUIDLib where
  Parse := canonicalParse
  Scan := fun s =>
    if s = "" then some zeroUUID
    else
      match canonicalParse s with
      | (u, true) => some u
      | (_, false) => none
  Value := canonicalValue

/-- Stores of which no call returns an error. -/
def noFaults : Faults where
  putErr := fun _ _ _ => false
  removeErr := fun _ _ => false
  insertErr := fun _ _ => false
  selectKeyErr := fun _ _ _ => false
  deleteErr := fun _ _ => false
  selectFilesErr := fun _ _ _ _ => false
  rowsStop := fun _ => none
  scanErr := fun _ => false
  countErr := fun _ _ => false

/-- Stores whose blob put returns an error. -/
def failingPut : Faults := { noFaults with putErr := fun _ _ _ => true }

/-- Stores whose blob delete returns an error. -/
def failingRemove : Faults := { noFaults with removeErr := fun _ _ => true }

/-- Stores whose metadata insert returns an error. -/
def failingInsert : Faults := { noFaults with insertErr := fun _ _ => true }

/-- A pagination reader that accepts every request as page 1 of size 2. -/
def fixedPagination : String → String → Except AppError Pagination :=
  fun _ _ => Except.ok { Page := 1, PageSize := 2 }

/-- A clock that advances by one nanosecond at every reading. -/
def tickingClock : Nat → Time := fun n => (n : Int)

/-- The text of a sample owner id, a valid UUID. -/
def aliceID : String := "123e4567-e89b-12d3-a456-426614174000"

/-- The UUID of `aliceID`. -/
def aliceUUID : UUID := ⟨[18, 62, 69, 103, 232, 155, 18, 211, 164, 86, 66, 102, 20, 23, 64, 0]⟩

/-- A sample result of `uuid.New()`. -/
def freshUUID : UUID := ⟨[0, 0, 0, 0, 0, 0, 64, 0, 128, 0, 0, 0, 0, 0, 0, 7]⟩

/-- The text of `freshUUID`. -/
def freshID : String := "00000000-0000-4000-8000-000000000007"

/-- A sample upload header. -/
def notesHeader : FileHeader := { Filename := "a.txt", Size := 4, ContentType := "text/plain" }

/-- A row of the owner `aliceID`. -/
def aliceRow : Row :=
  { id := freshID, user_id := aliceID, collection_id := none,
    key := "123e4567-e89b-12d3-a456-426614174000_0_a.txt", name := "a.txt", size := 4,
    content_type := "text/plain", uploaded_at := 1, created_at := 2, updated_at := 3 }

/-- A row of another owner. -/
def bobRow : Row :=
  { id := "00000000-0000-4000-8000-000000000008",
    user_id := "223e4567-e89b-12d3-a456-426614174000", collection_id := none,
    key := "223e4567-e89b-12d3-a456-426614174000_5_b.txt", name := "b.txt", size := 1,
    content_type := "text/plain", uploaded_at := 6, created_at := 7, updated_at := 8 }

/-- A state with one file of each of the two owners. -/
def twoOwners : World :=
  { files := [bobRow, aliceRow],
    bucket := [("223e4567-e89b-12d3-a456-426614174000_5_b.txt", "b"),
               ("123e4567-e89b-12d3-a456-426614174000_0_a.txt", "data")] }

/-- The empty state. -/
def emptyWorld : World := { files := [], bucket := [] }

/-! ## Lemmas on decimal formatting -/

/-- Value of a decimal digit character. -/
def digitVal (c : Char) : Nat := c.toNat - 48

/-- Number read from decimal digits, most significant first. -/
def decodeDec (cs : List Char) : Nat := cs.foldl (fun acc c => acc * 10 + digitVal c) 0

theorem digitChar_spec (d : Nat) (h : d < 10) :
    digitVal (digitChar d) = d ∧ digitChar d ≠ '_' ∧ digitChar d ≠ '-' := by
  interval_cases d <;> decide

theorem decodeDec_append (cs : List Char) (c : Char) :
    decodeDec (cs ++ [c]) = decodeDec cs * 10 + digitVal c := by
  simp [decodeDec, List.foldl_append]

theorem decDigits_spec (fuel : Nat) :
    ∀ n, n < fuel →
      decodeDec (decDigits fuel n) = n ∧
        ∀ c ∈ decDigits fuel n, c ≠ '_' ∧ c ≠ '-' := by
  induction fuel with
  | zero => intro n h; omega
  | succ fuel ih =>
    intro n h
    unfold decDigits
    by_cases h10 : n < 10
    · simp only [h10, if_true]
      refine ⟨?_, ?_⟩
      · simp [decodeDec, (digitChar_spec n h10).1]
      · intro c hc
        rw [List.mem_singleton] at hc
        subst hc
        exact (digitChar_spec n h10).2
    · simp only [h10, if_false]
      have hlt : n / 10 < fuel := by omega
      have hmod : n % 10 < 10 := Nat.mod_lt _ (by decide)
      obtain ⟨hdec, hch⟩ := ih (n / 10) hlt
      refine ⟨?_, ?_⟩
      · rw [decodeDec_append, hdec, (digitChar_spec _ hmod).1]
        omega
      · intro c hc
        rw [List.mem_append, List.mem_singleton] at hc
        rcases hc with hc | hc
        · exact hch c hc
        · subst hc
          exact (digitChar_spec _ hmod).2

theorem formatNat_decode (n : Nat) : decodeDec (formatNat n) = n :=
  (decDigits_spec (n + 1) n (Nat.lt_succ_self n)).1

theorem formatNat_chars (n : Nat) : ∀ c ∈ formatNat n, c ≠ '_' ∧ c ≠ '-' :=
  (decDigits_spec (n + 1) n (Nat.lt_succ_self n)).2

theorem formatNat_injective {a b : Nat} (h : formatNat a = formatNat b) : a = b := by
  have := congrArg decodeDec h
  rwa [formatNat_decode, formatNat_decode] at this

/-- No underscore occurs in the decimal rendering of an integer. -/
theorem formatInt_no_underscore (i : Int) : '_' ∉ (formatInt i).data := by
  cases i with
  | ofNat n =>
    intro h
    exact (formatNat_chars n _ h).1 rfl
  | negSucc n =>
    intro h
    simp only [formatInt, List.mem_cons] at h
    rcases h with h | h
    · exact absurd h (by decide)
    · exact (formatNat_chars (n + 1) _ h).1 rfl

/-- The decimal rendering determines the integer. -/
theorem formatInt_injective {a b : Int} (h : formatInt a = formatInt b) : a = b := by
  have hd : (formatInt a).data = (formatInt b).data := congrArg String.data h
  cases a with
  | ofNat n =>
    cases b with
    | ofNat m =>
      simp only [formatInt] at hd
      rw [formatNat_injective hd]
    | negSucc m =>
      simp only [formatInt] at hd
      have hmem : '-' ∈ formatNat n := by rw [hd]; exact List.mem_cons_self _ _
      exact absurd rfl (formatNat_chars n _ hmem).2
  | negSucc n =>
    cases b with
    | ofNat m =>
      simp only [formatInt] at hd
      have hmem : '-' ∈ formatNat m := by rw [← hd]; exact List.mem_cons_self _ _
      exact absurd rfl (formatNat_chars m _ hmem).2
    | negSucc m =>
      simp only [formatInt, List.cons.injEq, true_and] at hd
      have := formatNat_injective hd
      have hnm : n = m := by omega
      rw [hnm]

/-- Two sequences without `sep`, each followed by `sep` and a rest: equal
wholes have equal parts. -/
theorem append_sep_inj (sep : Char) :
    ∀ (a b x y : List Char), sep ∉ a → sep ∉ b →
      a ++ sep :: x = b ++ sep :: y → a = b ∧ x = y := by
  intro a
  induction a with
  | nil =>
    intro b x y _ hb h
    cases b with
    | nil => simpa using h
    | cons c b =>
      simp only [List.nil_append, List.cons_append, List.cons.injEq] at h
      exact absurd (h.1 ▸ List.mem_cons_self _ _) hb
  | cons c a ih =>
    intro b x y ha hb h
    cases b with
    | nil =>
      simp only [List.nil_append, List.cons_append, List.cons.injEq] at h
      exact absurd (h.1 ▸ List.mem_cons_self _ _) ha
    | cons d b =>
      simp only [List.cons_append, List.cons.injEq] at h
      have ha2 : sep ∉ a := fun hm => ha (List.mem_cons_of_mem _ hm)
      have hb2 : sep ∉ b := fun hm => hb (List.mem_cons_of_mem _ hm)
      obtain ⟨hab, hxy⟩ := ih b x y ha2 hb2 h.2
      exact ⟨by rw [h.1, hab], hxy⟩

/-- The characters of a derived key. -/
theorem deriveKey_data (userID : String) (nanos : Int) (filename : String) :
    (deriveKey userID nanos filename).data =
      userID.data ++ '_' :: ((formatInt nanos).data ++ '_' :: filename.data) := by
  simp [deriveKey, String.data_append]

/-! ## Lemmas on splitting -/

theorem splitChars_ne_nil (sep : Char) (cs : List Char) : splitChars sep cs ≠ [] := by
  cases cs with
  | nil => simp [splitChars]
  | cons c cs =>
    unfold splitChars
    by_cases h : c = sep
    · simp [h]
    · simp only [h, if_false]
      split <;> simp

/-- A sequence without `sep` is its own single piece. -/
theorem splitChars_of_not_mem (sep : Char) :
    ∀ cs : List Char, sep ∉ cs → splitChars sep cs = [cs] := by
  intro cs
  induction cs with
  | nil => intro _; rfl
  | cons c cs ih =>
    intro h
    have hc : c ≠ sep := fun e => h (e ▸ List.mem_cons_self _ _)
    have hcs : sep ∉ cs := fun hm => h (List.mem_cons_of_mem _ hm)
    unfold splitChars
    simp [hc, ih hcs]

/-- Splitting after a first piece without `sep`. -/
theorem splitChars_append (sep : Char) :
    ∀ (a rest : List Char), sep ∉ a →
      splitChars sep (a ++ sep :: rest) = a :: splitChars sep rest := by
  intro a
  induction a with
  | nil => intro rest _; simp [splitChars]
  | cons c a ih =>
    intro rest h
    have hc : c ≠ sep := fun e => h (e ▸ List.mem_cons_self _ _)
    have ha : sep ∉ a := fun hm => h (List.mem_cons_of_mem _ hm)
    rw [List.cons_append, splitChars, if_neg hc, ih rest ha]

/-- Every sequence is a single piece without `sep`, or a first piece without
`sep` followed by `sep` and a rest. -/
theorem exists_first_piece (sep : Char) :
    ∀ cs : List Char, sep ∉ cs ∨ ∃ a rest, sep ∉ a ∧ cs = a ++ sep :: rest := by
  intro cs
  induction cs with
  | nil => left; simp
  | cons c cs ih =>
    by_cases hc : c = sep
    · right
      exact ⟨[], cs, by simp, by simp [hc]⟩
    · rcases ih with h | ⟨a, rest, ha, hcs⟩
      · left
        intro hm
        rcases List.mem_cons.1 hm with e | e
        · exact hc e.symm
        · exact h e
      · right
        refine ⟨c :: a, rest, ?_, by simp [hcs]⟩
        intro hm
        rcases List.mem_cons.1 hm with e | e
        · exact hc e.symm
        · exact ha e

/-- Exactly two pieces: one occurrence of `sep`, between them. -/
theorem splitChars_eq_pair (sep : Char) (cs p q : List Char) :
    splitChars sep cs = [p, q] ↔ cs = p ++ sep :: q ∧ sep ∉ p ∧ sep ∉ q := by
  constructor
  · intro h
    rcases exists_first_piece sep cs with h1 | ⟨a, rest, ha, hcs⟩
    · rw [splitChars_of_not_mem sep cs h1] at h
      simp at h
    · subst hcs
      rw [splitChars_append sep a rest ha] at h
      simp only [List.cons.injEq] at h
      obtain ⟨hap, hrest⟩ := h
      subst hap
      rcases exists_first_piece sep rest with h2 | ⟨b, rest2, hb, hr⟩
      · rw [splitChars_of_not_mem sep rest h2] at hrest
        simp only [List.cons.injEq, and_true] at hrest
        subst hrest
        exact ⟨rfl, ha, h2⟩
      · subst hr
        rw [splitChars_append sep b rest2 hb] at hrest
        simp only [List.cons.injEq] at hrest
        exact absurd hrest.2 (splitChars_ne_nil sep rest2)
  · rintro ⟨hcs, hp, hq⟩
    rw [hcs, splitChars_append sep p q hp, splitChars_of_not_mem sep q hq]

/-- The split of a header at the space is `["Bearer", t]` exactly for the
header `"Bearer " ++ t` with no space in `t`. -/
theorem stringsSplit_bearer (h t : String) :
    stringsSplit h ' ' = ["Bearer", t] ↔ h = "Bearer " ++ t ∧ ' ' ∉ t.data := by
  have hB : ' ' ∉ "Bearer".data := by decide
  have hmap : stringsSplit h ' ' = ["Bearer", t] ↔
      splitChars ' ' h.data = ["Bearer".data, t.data] := by
    unfold stringsSplit
    constructor
    · intro e
      have e2 := congrArg (List.map String.data) e
      simpa [List.map_map, Function.comp_def] using e2
    · intro e
      rw [e]
      rfl
  rw [hmap, splitChars_eq_pair]
  constructor
  · rintro ⟨e, _, ht⟩
    refine ⟨?_, ht⟩
    apply String.ext
    rw [e, String.data_append]
    rfl
  · rintro ⟨e, ht⟩
    refine ⟨?_, hB, ht⟩
    rw [e, String.data_append]
    rfl

/-- The three ways `ExtractBearerToken` ends. -/
theorem ExtractBearerToken_cases (h : String) :
    ExtractBearerToken h = ("", some "missing Authorization header") ∨
      ExtractBearerToken h = ("", some "invalid Authorization header format") ∨
        ∃ t, stringsSplit h ' ' = ["Bearer", t] ∧ ExtractBearerToken h = (t, none) := by
  unfold ExtractBearerToken
  by_cases h0 : h = ""
  · left
    simp [h0]
  · right
    simp only [h0, if_false]
    by_cases hc : (stringsSplit h ' ').length ≠ 2 ∨
        (stringsSplit h ' ').get? 0 ≠ some "Bearer"
    · left
      simp only [hc, if_true]
    · right
      simp only [hc, if_false]
      push_neg at hc
      obtain ⟨hlen, hget⟩ := hc
      match hs : stringsSplit h ' ', hlen, hget with
      | [a, b], _, hget =>
        simp only [List.get?_cons_zero, Option.some.injEq] at hget
        subst hget
        exact ⟨b, rfl, by simp⟩

/-- A header of the form `"Bearer " ++ t` is not empty. -/
theorem bearer_ne_empty (t : String) : "Bearer " ++ t ≠ "" := by
  intro e
  have := congrArg String.length e
  simp [String.length_append] at this
  have h7 : "Bearer ".length = 7 := by decide
  omega

/-! ## Lemmas on the listing query and the scan loop -/

/-- A scanned file carries the UUID read from the owner column of its row. -/
theorem scanRow_user (lib : UUIDLib) (fl : Faults) (row : Row) (f : File)
    (h : scanRow lib fl row = some f) : lib.Scan row.user_id = some f.UserID := by
  unfold scanRow at h
  split at h
  · exact absurd h (by simp)
  · split at h
    · next id userID _ hu =>
      simp only [Option.some.injEq] at h
      rw [hu, ← h]
    · exact absurd h (by simp)

/-- The scan loop gives one file for each row, in order. -/
theorem scanRows_spec (lib : UUIDLib) (fl : Faults) :
    ∀ (rows : List Row) (files : List File), scanRows lib fl rows = some files →
      files.length = rows.length ∧
        ∀ f ∈ files, ∃ row ∈ rows, scanRow lib fl row = some f := by
  intro rows
  induction rows with
  | nil =>
    intro files h
    simp only [scanRows, Option.some.injEq] at h
    subst h
    simp
  | cons row rest ih =>
    intro files h
    unfold scanRows at h
    split at h
    · exact absurd h (by simp)
    · next f hf =>
      split at h
      · exact absurd h (by simp)
      · next fs hfs =>
        simp only [Option.some.injEq] at h
        subst h
        obtain ⟨hlen, hmem⟩ := ih fs hfs
        refine ⟨by simp [hlen], ?_⟩
        intro g hg
        rcases List.mem_cons.1 hg with e | e
        · subst e
          exact ⟨row, List.mem_cons_self _ _, hf⟩
        · obtain ⟨r, hr, hs⟩ := hmem g e
          exact ⟨r, List.mem_cons_of_mem _ hr, hs⟩

/-- The window of `LIMIT` and `OFFSET` holds rows of the input only, and at
most `limit` of them when `limit` is not negative. -/
theorem limitOffset_spec (rows : List Row) (limit offset : Int) :
    (∀ r ∈ limitOffset rows limit offset, r ∈ rows) ∧
      (0 ≤ limit → ((limitOffset rows limit offset).length : Int) ≤ limit) := by
  unfold limitOffset
  refine ⟨?_, ?_⟩
  · intro r hr
    simp only at hr
    split at hr
    · exact List.mem_of_mem_drop hr
    · exact List.mem_of_mem_drop (List.mem_of_mem_take hr)
  · intro h0
    simp only
    rw [if_neg (not_lt.2 h0)]
    have h1 : (List.take limit.toNat (List.drop offset.toNat rows)).length ≤ limit.toNat := by
      rw [List.length_take]
      exact Nat.min_le_left _ _
    have h2 : ((limit.toNat : Nat) : Int) = limit := Int.toNat_of_nonneg h0
    omega

/-- The rows delivered to `GetFiles` are rows of the table owned by the
caller, at most `limit` of them when `limit` is not negative. -/
theorem queryFiles_spec (fl : Faults) (w : World) (userID : String) (limit offset : Int)
    (rows : List Row) (h : queryFiles fl w userID limit offset = some rows) :
    (∀ r ∈ rows, r ∈ w.files ∧ r.user_id = userID) ∧
      (0 ≤ limit → (rows.length : Int) ≤ limit) := by
  obtain ⟨hmem, hlen⟩ :=
    limitOffset_spec (w.files.filter (fun r => r.user_id = userID)) limit offset
  have hfilter : ∀ r ∈ w.files.filter (fun r => r.user_id = userID),
      r ∈ w.files ∧ r.user_id = userID := by
    intro r hr
    rw [List.mem_filter] at hr
    exact ⟨hr.1, by simpa using hr.2⟩
  unfold queryFiles at h
  split at h
  · exact absurd h (by simp)
  · simp only at h
    split at h
    · simp only [Option.some.injEq] at h
      subst h
      exact ⟨fun r hr => hfilter r (hmem r hr), hlen⟩
    · next n _ =>
      simp only [Option.some.injEq] at h
      subst h
      refine ⟨fun r hr => hfilter r (hmem r (List.mem_of_mem_take hr)), ?_⟩
      intro h0
      have h1 := hlen h0
      have h2 : (List.take n (limitOffset (w.files.filter (fun r => r.user_id = userID))
          limit offset)).length ≤
          (limitOffset (w.files.filter (fun r => r.user_id = userID)) limit offset).length := by
        rw [List.length_take]
        exact Nat.min_le_right _ _
      omega

/-! ## Storage keys -/

/-- C5: for one owner, two distinct timestamps and any two filenames (equal or
not, with or without underscores and digits), the derived storage keys are
different. -/
theorem deriveKey_distinct_timestamps (owner : String) (t1 t2 : Int) (f1 f2 : String)
    (h : t1 ≠ t2) : deriveKey owner t1 f1 ≠ deriveKey owner t2 f2 := by
  intro e
  have hd := congrArg String.data e
  rw [deriveKey_data, deriveKey_data] at hd
  have h2 := List.append_cancel_left hd
  simp only [List.cons.injEq, true_and] at h2
  have h3 := append_sep_inj '_' _ _ _ _ (formatInt_no_underscore t1)
    (formatInt_no_underscore t2) h2
  exact h (formatInt_injective (String.ext h3.1))

/-- Witness of C5: the same owner at instants 1 and 2, the first filename
starting with the digits of the second instant. -/
theorem deriveKey_distinct_timestamps_witness :
    (1 : Int) ≠ 2 ∧ deriveKey "u" 1 "2_a" ≠ deriveKey "u" 2 "a" :=
  ⟨by decide, deriveKey_distinct_timestamps "u" 1 2 "2_a" "a" (by decide)⟩

/-- C6, counterexample: two triples that differ in every component and derive
the same key, the owner id of the first containing an underscore. -/
theorem deriveKey_collision :
    "a_1" ≠ "a" ∧ (2 : Int) ≠ 1 ∧ "x" ≠ "2_x" ∧
      deriveKey "a_1" 2 "x" = deriveKey "a" 1 "2_x" := by
  decide

/-- C6, amended: on owner ids without an underscore the key derivation is
injective: two triples of owner id, timestamp and filename that differ in at
least one component derive different keys, for arbitrary filenames. -/
theorem deriveKey_injective (o1 o2 : String) (t1 t2 : Int) (f1 f2 : String)
    (h1 : '_' ∉ o1.data) (h2 : '_' ∉ o2.data)
    (hne : (o1, t1, f1) ≠ (o2, t2, f2)) : deriveKey o1 t1 f1 ≠ deriveKey o2 t2 f2 := by
  intro e
  have hd := congrArg String.data e
  rw [deriveKey_data, deriveKey_data] at hd
  obtain ⟨ho, hrest⟩ := append_sep_inj '_' _ _ _ _ h1 h2 hd
  obtain ⟨ht, hf⟩ := append_sep_inj '_' _ _ _ _ (formatInt_no_underscore t1)
    (formatInt_no_underscore t2) hrest
  apply hne
  rw [String.ext ho, formatInt_injective (String.ext ht), String.ext hf]

/-- Witness of the amended C6: one owner without an underscore, instants 12
and 1, the second filename starting with the digit that the first instant
ends with. -/
theorem deriveKey_injective_witness :
    ("a", (12 : Int), "x") ≠ ("a", (1 : Int), "2_x") ∧
      deriveKey "a" 12 "x" ≠ deriveKey "a" 1 "2_x" :=
  ⟨by decide, deriveKey_injective "a" "a" 12 1 "x" "2_x" (by decide) (by decide) (by decide)⟩

/-! ## Bearer tokens -/

/-- C10: `ExtractBearerToken` returns the token `t` without an error exactly
for the header `"Bearer " ++ t` with no space in `t` (`t` may be empty); for
every other header it returns the empty token and an error. -/
theorem ExtractBearerToken_spec (h : String) :
    (∀ t : String, ExtractBearerToken h = (t, none) ↔ (h = "Bearer " ++ t ∧ ' ' ∉ t.data)) ∧
      ((¬ ∃ t : String, h = "Bearer " ++ t ∧ ' ' ∉ t.data) →
        ∃ e, ExtractBearerToken h = ("", some e)) := by
  have key : ∀ t : String,
      ExtractBearerToken h = (t, none) ↔ (h = "Bearer " ++ t ∧ ' ' ∉ t.data) := by
    intro t
    constructor
    · intro e
      rcases ExtractBearerToken_cases h with c | c | ⟨u, hs, c⟩
      · rw [c] at e; simp at e
      · rw [c] at e; simp at e
      · rw [c] at e
        simp only [Prod.mk.injEq, and_true] at e
        subst e
        exact (stringsSplit_bearer h u).1 hs
    · intro hf
      have hs := (stringsSplit_bearer h t).2 hf
      rcases ExtractBearerToken_cases h with c | c | ⟨u, hs2, c⟩
      · exfalso
        have h0 : h ≠ "" := hf.1 ▸ bearer_ne_empty t
        unfold ExtractBearerToken at c
        simp [h0, hs] at c
      · exfalso
        have h0 : h ≠ "" := hf.1 ▸ bearer_ne_empty t
        unfold ExtractBearerToken at c
        simp [h0, hs] at c
      · rw [hs] at hs2
        simp only [List.cons.injEq, true_and, and_true] at hs2
        rw [c, hs2]
  refine ⟨key, ?_⟩
  intro hno
  rcases ExtractBearerToken_cases h with c | c | ⟨u, _, c⟩
  · exact ⟨_, c⟩
  · exact ⟨_, c⟩
  · exact absurd ⟨u, (key u).1 c⟩ hno


/-! ## Delete -/

/-- C1: when every row with the requested id belongs to an owner `A` other
than the caller `B` (and there is such a row), `DeleteFile` answers NotFound,
the same response as for an id that no row has; in both runs the only store
call is the lookup, so no blob delete and no metadata delete is made and both
stores are unchanged. -/
theorem DeleteFile_other_owner_not_found (fl fl0 : Faults) (w w0 : World)
    (A B fileID : String) (hAB : A ≠ B)
    (hrow : ∃ row ∈ w.files, row.id = fileID)
    (hown : ∀ row ∈ w.files, row.id = fileID → row.user_id = A)
    (hnone : ∀ row ∈ w0.files, row.id ≠ fileID) :
    DeleteFile fl w ⟨some B, fileID⟩ =
        ⟨fail .NotFound "File not found or not owned by user", w,
          [Call.SelectKey fileID B]⟩ ∧
      DeleteFile fl0 w0 ⟨some B, fileID⟩ =
        ⟨fail .NotFound "File not found or not owned by user", w0,
          [Call.SelectKey fileID B]⟩ ∧
      (DeleteFile fl w ⟨some B, fileID⟩).resp = (DeleteFile fl0 w0 ⟨some B, fileID⟩).resp := by
  have h1 : queryRowKey fl w fileID B = none := by
    unfold queryRowKey
    split
    · rfl
    · have : w.files.filter (fun r => r.id = fileID ∧ r.user_id = B) = [] := by
        rw [List.filter_eq_nil_iff]
        intro r hr
        simp only [decide_eq_true_eq, not_and]
        intro hid hu
        exact hAB ((hown r hr hid).symm.trans hu)
      rw [this]
      rfl
  have h2 : queryRowKey fl0 w0 fileID B = none := by
    unfold queryRowKey
    split
    · rfl
    · have : w0.files.filter (fun r => r.id = fileID ∧ r.user_id = B) = [] := by
        rw [List.filter_eq_nil_iff]
        intro r hr
        simp only [decide_eq_true_eq, not_and]
        intro hid _
        exact hnone r hr hid
      rw [this]
      rfl
  have _ := hrow
  have e1 : DeleteFile fl w ⟨some B, fileID⟩ =
      ⟨fail .NotFound "File not found or not owned by user", w,
        [Call.SelectKey fileID B]⟩ := by
    simp [DeleteFile, GetUserIDFromContext, h1]
  have e2 : DeleteFile fl0 w0 ⟨some B, fileID⟩ =
      ⟨fail .NotFound "File not found or not owned by user", w0,
        [Call.SelectKey fileID B]⟩ := by
    simp [DeleteFile, GetUserIDFromContext, h2]
  exact ⟨e1, e2, by rw [e1, e2]⟩

/-- C4: when the owner-filtered lookup gives a key and the blob delete under
that key returns an error, `DeleteFile` answers with a failure, makes no
metadata delete, and leaves the state as it was: the lookup still gives the
key. -/
theorem DeleteFile_blob_delete_error (fl : Faults) (w : World) (userID fileID key : String)
    (hlook : queryRowKey fl w fileID userID = some key)
    (hrm : fl.removeErr w key = true) :
    DeleteFile fl w ⟨some userID, fileID⟩ =
        ⟨fail .InternalServerError "Failed to delete file from storage", w,
          [Call.SelectKey fileID userID, Call.Remove key]⟩ ∧
      queryRowKey fl (DeleteFile fl w ⟨some userID, fileID⟩).world fileID userID = some key := by
  have e : DeleteFile fl w ⟨some userID, fileID⟩ =
      ⟨fail .InternalServerError "Failed to delete file from storage", w,
        [Call.SelectKey fileID userID, Call.Remove key]⟩ := by
    simp [DeleteFile, GetUserIDFromContext, hlook, R2DeleteFile, hrm]
  exact ⟨e, by rw [e]; exact hlook⟩

/-! ## Upload -/

/-- C2: when the blob write returns an error, `UploadFile` answers with a
failure and no File record, its only store call is the put (no metadata
insert), and the state, the metadata table included, is unchanged. -/
theorem UploadFile_blob_write_error (lib : UUIDLib) (fl : Faults) (clock : Nat → Time)
    (newID : UUID) (w : World) (userID content : String) (header : FileHeader)
    (hput : fl.putErr w (deriveKey userID (UnixNano (clock 0)) header.Filename) content = true) :
    UploadFile lib fl clock newID w ⟨some userID, some (content, header)⟩ =
      ⟨fail .InternalServerError "Failed to upload file", w,
        [Call.Put (deriveKey userID (UnixNano (clock 0)) header.Filename) content]⟩ := by
  simp [UploadFile, GetUserIDFromContext, R2UploadFile, hput]

/-- C3: when the blob write succeeds and the metadata insert returns an error,
`UploadFile` answers with a failure, not with the File record; the store calls
are one put and one insert, with no blob delete and no second attempt; the
blob is present under the derived key afterwards and the table is unchanged. -/
theorem UploadFile_insert_error (lib : UUIDLib) (fl : Faults) (clock : Nat → Time)
    (newID userUUID : UUID) (w w1 : World) (userID content : String) (header : FileHeader)
    (hput : R2UploadFile fl w (deriveKey userID (UnixNano (clock 0)) header.Filename) content
      = some w1)
    (hparse : lib.Parse userID = (userUUID, true))
    (hins : execInsert fl w1 (rowOfFile lib (newFile clock newID userUUID
      (deriveKey userID (UnixNano (clock 0)) header.Filename) header)) = none) :
    UploadFile lib fl clock newID w ⟨some userID, some (content, header)⟩ =
        ⟨fail .InternalServerError "Failed to save file metadata", w1,
          [Call.Put (deriveKey userID (UnixNano (clock 0)) header.Filename) content,
           Call.Insert (rowOfFile lib (newFile clock newID userUUID
            (deriveKey userID (UnixNano (clock 0)) header.Filename) header))]⟩ ∧
      w1.bucket.lookup (deriveKey userID (UnixNano (clock 0)) header.Filename) = some content ∧
      w1.files = w.files := by
  refine ⟨?_, ?_, ?_⟩
  · simp [UploadFile, GetUserIDFromContext, hput, hparse, hins]
  · unfold R2UploadFile at hput
    split at hput
    · exact absurd hput (by simp)
    · simp only [Option.some.injEq] at hput
      rw [← hput]
      simp [List.lookup]
  · unfold R2UploadFile at hput
    split at hput
    · exact absurd hput (by simp)
    · simp only [Option.some.injEq] at hput
      rw [← hput]


/-- Witness of C2: an upload against stores whose put fails. -/
theorem UploadFile_blob_write_error_witness :
    UploadFile canonicalLib failingPut tickingClock freshUUID twoOwners
        ⟨some aliceID, some ("data", notesHeader)⟩ =
      ⟨fail .InternalServerError "Failed to upload file", twoOwners,
        [Call.Put (deriveKey aliceID (UnixNano (tickingClock 0)) notesHeader.Filename) "data"]⟩ :=
  UploadFile_blob_write_error canonicalLib failingPut tickingClock freshUUID twoOwners
    aliceID "data" notesHeader rfl

/-- Witness of C3: an upload by `aliceID` against stores whose insert fails. -/
theorem UploadFile_insert_error_witness :
    UploadFile canonicalLib failingInsert tickingClock freshUUID emptyWorld
        ⟨some aliceID, some ("data", notesHeader)⟩ =
        ⟨fail .InternalServerError "Failed to save file metadata",
          ⟨[], [(deriveKey aliceID (UnixNano (tickingClock 0)) notesHeader.Filename, "data")]⟩,
          [Call.Put (deriveKey aliceID (UnixNano (tickingClock 0)) notesHeader.Filename) "data",
           Call.Insert (rowOfFile canonicalLib (newFile tickingClock freshUUID aliceUUID
            (deriveKey aliceID (UnixNano (tickingClock 0)) notesHeader.Filename)
            notesHeader))]⟩ ∧
      List.lookup (deriveKey aliceID (UnixNano (tickingClock 0)) notesHeader.Filename)
        [(deriveKey aliceID (UnixNano (tickingClock 0)) notesHeader.Filename, "data")]
          = some "data" ∧
      ([] : List Row) = emptyWorld.files :=
  UploadFile_insert_error canonicalLib failingInsert tickingClock freshUUID aliceUUID
    emptyWorld
    ⟨[], [(deriveKey aliceID (UnixNano (tickingClock 0)) notesHeader.Filename, "data")]⟩
    aliceID "data" notesHeader (by decide) (by decide) (by decide)

/-- C8, counterexample: with a clock that advances between readings, a
successful upload returns a File whose `uploaded_at`, `created_at` and
`updated_at` are three different instants. -/
theorem UploadFile_timestamps_differ :
    UploadFile canonicalLib noFaults tickingClock freshUUID emptyWorld
        ⟨some aliceID, some ("data", notesHeader)⟩ =
      ⟨Response.RespondJSON 201 (Body.File
        { ID := freshUUID, UserID := aliceUUID, CollectionID := none,
          Key := "123e4567-e89b-12d3-a456-426614174000_0_a.txt", Name := "a.txt", Size := 4,
          ContentType := "text/plain", UploadedAt := 1, CreatedAt := 2, UpdatedAt := 3 }),
       ⟨[aliceRow], [("123e4567-e89b-12d3-a456-426614174000_0_a.txt", "data")]⟩,
       [Call.Put "123e4567-e89b-12d3-a456-426614174000_0_a.txt" "data",
        Call.Insert aliceRow]⟩ := by
  decide

/-- C8, amended: on every successful create the returned File has
`uploaded_at`, `created_at` and `updated_at` equal to the second, third and
fourth clock readings of the request, in this order, and the inserted row
carries the same three values; they are one instant when these three readings
are equal. -/
theorem UploadFile_timestamps (lib : UUIDLib) (fl : Faults) (clock : Nat → Time)
    (newID : UUID) (w : World) (r : UploadRequest) (f : File)
    (h : (UploadFile lib fl clock newID w r).resp = Response.RespondJSON 201 (Body.File f)) :
    f.UploadedAt = clock 1 ∧ f.CreatedAt = clock 2 ∧ f.UpdatedAt = clock 3 ∧
      rowOfFile lib f ∈ (UploadFile lib fl clock newID w r).world.files ∧
      (rowOfFile lib f).uploaded_at = clock 1 ∧ (rowOfFile lib f).created_at = clock 2 ∧
      (rowOfFile lib f).updated_at = clock 3 ∧
      (clock 1 = clock 2 → clock 2 = clock 3 →
        f.UploadedAt = f.CreatedAt ∧ f.CreatedAt = f.UpdatedAt) := by
  unfold UploadFile at h ⊢
  split at h
  · simp [fail] at h
  · split at h
    · simp [fail] at h
    · next file header =>
      simp only at h ⊢
      split at h
      · simp [fail] at h
      · next w1 hput =>
        split at h
        · simp [fail] at h
        · next u hparse =>
          split at h
          · simp [fail] at h
          · next w2 hins =>
            simp only [Response.RespondJSON.injEq, Body.File.injEq, true_and] at h
            subst h
            simp only [hput, hparse, hins]
            unfold execInsert at hins
            split at hins
            · exact absurd hins (by simp)
            · simp only [Option.some.injEq] at hins
              subst hins
              refine ⟨rfl, rfl, rfl, by simp, rfl, rfl, rfl, ?_⟩
              intro h12 h23
              exact ⟨h12, h23⟩

/-- Witness of the amended C8: a successful upload under a clock that stands
still at instant 5. -/
theorem UploadFile_timestamps_witness :
    (newFile (fun _ => 5) freshUUID aliceUUID (deriveKey aliceID (UnixNano 5) "a.txt")
        notesHeader).UploadedAt = 5 ∧
      (newFile (fun _ => 5) freshUUID aliceUUID (deriveKey aliceID (UnixNano 5) "a.txt")
        notesHeader).CreatedAt = 5 ∧
      (newFile (fun _ => 5) freshUUID aliceUUID (deriveKey aliceID (UnixNano 5) "a.txt")
        notesHeader).UpdatedAt = 5 :=
  have h := UploadFile_timestamps canonicalLib noFaults (fun _ => 5) freshUUID emptyWorld
    ⟨some aliceID, some ("data", notesHeader)⟩
    (newFile (fun _ => 5) freshUUID aliceUUID (deriveKey aliceID (UnixNano 5) "a.txt")
      notesHeader)
    (by decide)
  ⟨h.1, h.2.1, h.2.2.1⟩

/-- C9, counterexample: an upload by an owner id that is not a UUID ends with
the blob written under the derived key, no row in the table, and the put as
its only store call: no metadata insert was attempted. -/
theorem UploadFile_orphan_without_insert :
    UploadFile canonicalLib noFaults tickingClock freshUUID emptyWorld
        ⟨some "user_1", some ("data", notesHeader)⟩ =
      ⟨fail .InternalServerError "Invalid user ID",
       ⟨[], [("user_1_0_a.txt", "data")]⟩,
       [Call.Put "user_1_0_a.txt" "data"]⟩ := by
  decide

/-- C9, amended: for every owner id that `uuid.Parse` accepts, once the blob
write succeeds the metadata insert is always attempted, and if no row with
the derived key is in the table afterwards then that insert returned an error
and the response is the failure of the insert. -/
theorem UploadFile_insert_attempted (lib : UUIDLib) (fl : Faults) (clock : Nat → Time)
    (newID u : UUID) (w w1 : World) (userID content : String) (header : FileHeader)
    (hput : R2UploadFile fl w (deriveKey userID (UnixNano (clock 0)) header.Filename) content
      = some w1)
    (hparse : lib.Parse userID = (u, true)) :
    Call.Insert (rowOfFile lib (newFile clock newID u
        (deriveKey userID (UnixNano (clock 0)) header.Filename) header)) ∈
      (UploadFile lib fl clock newID w ⟨some userID, some (content, header)⟩).calls ∧
    ((∀ row ∈ (UploadFile lib fl clock newID w
          ⟨some userID, some (content, header)⟩).world.files,
        row.key ≠ deriveKey userID (UnixNano (clock 0)) header.Filename) →
      execInsert fl w1 (rowOfFile lib (newFile clock newID u
        (deriveKey userID (UnixNano (clock 0)) header.Filename) header)) = none ∧
      (UploadFile lib fl clock newID w ⟨some userID, some (content, header)⟩).resp =
        fail .InternalServerError "Failed to save file metadata") := by
  cases hins : execInsert fl w1 (rowOfFile lib (newFile clock newID u
      (deriveKey userID (UnixNano (clock 0)) header.Filename) header)) with
  | none =>
    simp [UploadFile, GetUserIDFromContext, hput, hparse, hins]
  | some w2 =>
    have hw2 : rowOfFile lib (newFile clock newID u
        (deriveKey userID (UnixNano (clock 0)) header.Filename) header) ∈ w2.files := by
      unfold execInsert at hins
      split at hins
      · exact absurd hins (by simp)
      · simp only [Option.some.injEq] at hins
        subst hins
        simp
    refine ⟨by simp [UploadFile, GetUserIDFromContext, hput, hparse, hins], ?_⟩
    intro hno
    exfalso
    have hworld : (UploadFile lib fl clock newID w
        ⟨some userID, some (content, header)⟩).world = w2 := by
      simp [UploadFile, GetUserIDFromContext, hput, hparse, hins]
    rw [hworld] at hno
    exact hno _ hw2 rfl

/-- Witness of the amended C9: an upload by `aliceID` against stores whose
insert fails; the insert is among the store calls. -/
theorem UploadFile_insert_attempted_witness :
    Call.Insert (rowOfFile canonicalLib (newFile tickingClock freshUUID aliceUUID
        (deriveKey aliceID (UnixNano (tickingClock 0)) notesHeader.Filename) notesHeader)) ∈
      (UploadFile canonicalLib failingInsert tickingClock freshUUID emptyWorld
        ⟨some aliceID, some ("data", notesHeader)⟩).calls :=
  (UploadFile_insert_attempted canonicalLib failingInsert tickingClock freshUUID aliceUUID
    emptyWorld
    ⟨[], [(deriveKey aliceID (UnixNano (tickingClock 0)) notesHeader.Filename, "data")]⟩
    aliceID "data" notesHeader (by decide) (by decide)).1

/-! ## Delete: concrete runs -/

/-- Witness of C1: `aliceID` asks to delete the file of the other owner in
`twoOwners`, and an id that the empty table does not hold. -/
theorem DeleteFile_other_owner_not_found_witness :
    DeleteFile noFaults twoOwners ⟨some aliceID, bobRow.id⟩ =
        ⟨fail .NotFound "File not found or not owned by user", twoOwners,
          [Call.SelectKey bobRow.id aliceID]⟩ ∧
      DeleteFile noFaults emptyWorld ⟨some aliceID, bobRow.id⟩ =
        ⟨fail .NotFound "File not found or not owned by user", emptyWorld,
          [Call.SelectKey bobRow.id aliceID]⟩ ∧
      (DeleteFile noFaults twoOwners ⟨some aliceID, bobRow.id⟩).resp =
        (DeleteFile noFaults emptyWorld ⟨some aliceID, bobRow.id⟩).resp :=
  DeleteFile_other_owner_not_found noFaults noFaults twoOwners emptyWorld
    bobRow.user_id aliceID bobRow.id (by decide) (by decide) (by decide) (by decide)

/-- Witness of C4: `aliceID` deletes her file against stores whose blob
delete fails. -/
theorem DeleteFile_blob_delete_error_witness :
    DeleteFile failingRemove twoOwners ⟨some aliceID, freshID⟩ =
        ⟨fail .InternalServerError "Failed to delete file from storage", twoOwners,
          [Call.SelectKey freshID aliceID, Call.Remove aliceRow.key]⟩ ∧
      queryRowKey failingRemove
        (DeleteFile failingRemove twoOwners ⟨some aliceID, freshID⟩).world freshID aliceID
          = some aliceRow.key :=
  DeleteFile_blob_delete_error failingRemove twoOwners aliceID freshID aliceRow.key
    (by decide) rfl

/-! ## List -/

/-- C7: for an authenticated caller and an accepted pagination with a page
size that is not negative, `GetFiles` answers with an internal error or with
a listing; in a listing every File comes from a row of the table whose owner
column is the caller and carries the caller's id as its owner, there are at
most `page_size` files, and the total count handed to the pagination block is
the number of rows owned by the caller. -/
theorem GetFiles_listing (lib : UUIDLib)
    (newPagination : String → String → Except AppError Pagination) (fl : Faults) (w : World)
    (userID page pageSize : String) (pg : Pagination)
    (hacc : newPagination page pageSize = Except.ok pg) (hsize : 0 ≤ pg.PageSize) :
    (∃ msg, (GetFiles lib newPagination fl w ⟨some userID, page, pageSize⟩).resp =
        fail .InternalServerError msg) ∨
      ∃ files, (GetFiles lib newPagination fl w ⟨some userID, page, pageSize⟩).resp =
          Response.RespondJSON 200 (Body.Listing files
            (CalculatePagination ((w.files.filter (fun r => r.user_id = userID)).length : Int)
              pg.Page pg.PageSize)) ∧
        (CalculatePagination ((w.files.filter (fun r => r.user_id = userID)).length : Int)
          pg.Page pg.PageSize).TotalCount =
            ((w.files.filter (fun r => r.user_id = userID)).length : Int) ∧
        (files.length : Int) ≤ pg.PageSize ∧
        ∀ f ∈ files, lib.Scan userID = some f.UserID ∧
          ∃ row ∈ w.files, row.user_id = userID ∧ scanRow lib fl row = some f := by
  unfold GetFiles
  simp only [GetUserIDFromContext, hacc]
  split
  · exact Or.inl ⟨_, rfl⟩
  · next rows hq =>
    split
    · exact Or.inl ⟨_, rfl⟩
    · next files hs =>
      split
      · exact Or.inl ⟨_, rfl⟩
      · next totalCount hc =>
        right
        have hcount : totalCount =
            ((w.files.filter (fun r => r.user_id = userID)).length : Int) := by
          unfold queryCount at hc
          split at hc
          · exact absurd hc (by simp)
          · simp only [Option.some.injEq] at hc
            exact hc.symm
        obtain ⟨hrows, hlen⟩ := queryFiles_spec fl w userID _ _ rows hq
        obtain ⟨hfl, hfm⟩ := scanRows_spec lib fl rows files hs
        refine ⟨files, by rw [hcount], rfl, ?_, ?_⟩
        · rw [hfl]
          exact hlen hsize
        · intro f hf
          obtain ⟨row, hrow, hscan⟩ := hfm f hf
          obtain ⟨hin, hu⟩ := hrows row hrow
          refine ⟨?_, row, hin, hu, hscan⟩
          rw [← hu]
          exact scanRow_user lib fl row f hscan

/-- Witness of C7: `aliceID` lists `twoOwners`, which holds one file of hers
and one of another owner. -/
theorem GetFiles_listing_witness :
    (GetFiles canonicalLib fixedPagination noFaults twoOwners ⟨some aliceID, "1", "2"⟩).resp =
        Response.RespondJSON 200 (Body.Listing
          [{ ID := freshUUID, UserID := aliceUUID, CollectionID := none,
             Key := "123e4567-e89b-12d3-a456-426614174000_0_a.txt", Name := "a.txt",
             Size := 4, ContentType := "text/plain", UploadedAt := 1, CreatedAt := 2,
             UpdatedAt := 3 }]
          { Page := 1, PageSize := 2, TotalCount := 1, TotalPages := 1, HasNext := false,
            HasPrevious := false }) ∧
      ((∃ msg, (GetFiles canonicalLib fixedPagination noFaults twoOwners
          ⟨some aliceID, "1", "2"⟩).resp = fail .InternalServerError msg) ∨
        ∃ files, (GetFiles canonicalLib fixedPagination noFaults twoOwners
            ⟨some aliceID, "1", "2"⟩).resp =
            Response.RespondJSON 200 (Body.Listing files
              (CalculatePagination
                ((twoOwners.files.filter (fun r => r.user_id = aliceID)).length : Int) 1 2)) ∧
          (CalculatePagination
            ((twoOwners.files.filter (fun r => r.user_id = aliceID)).length : Int) 1 2).TotalCount
              = ((twoOwners.files.filter (fun r => r.user_id = aliceID)).length : Int) ∧
          (files.length : Int) ≤ 2 ∧
          ∀ f ∈ files, canonicalLib.Scan aliceID = some f.UserID ∧
            ∃ row ∈ twoOwners.files, row.user_id = aliceID ∧
              scanRow canonicalLib noFaults row = some f) :=
  ⟨by decide,
   GetFiles_listing canonicalLib fixedPagination noFaults twoOwners aliceID "1" "2"
    { Page := 1, PageSize := 2 } rfl (by decide)⟩

end FileStorage
